import Mathlib

/-!
Verification of the culinary recipe-management server.

This file gives a shallow embedding, in Lean 4, of the recipe/category
controllers (`src/controllers/recipeController.js`), the Mongoose models
(`models/Recipe.js`, `models/Category.js`) and the authentication middleware
(`src/middleware/auth.js`), and proves or refutes the specification claims
about them.

Conventions of the embedding:
* Mongo documents become Lean structures; object ids become `Nat`.
* JavaScript numbers that the code only ever uses as non-negative integers
  (times, counters, ids) become `Nat`; the derived `averageRating` field,
  which is a fractional number, becomes `ℚ` (the integer/small-denominator
  arithmetic performed by the code is exact in ℚ and agrees with IEEE
  doubles on all feasible inputs).
* A Mongoose `document.save()` is modelled as a pure function applying the
  registered `pre('save')` hooks in registration order; a
  `findByIdAndUpdate` is modelled as a direct field overwrite, which —
  exactly as in Mongoose — runs **no** document save hooks.
* Fallible controller actions return `Except AppError α`.
-/

namespace Culinary

/-- JavaScript `Math.round`: rounds half toward positive infinity. -/
def jsRound (q : ℚ) : ℤ := ⌊q + 1/2⌋

/-- Error value carried by `AppError(message, statusCode)` in the server. -/
structure AppError where
  message : String
  statusCode : Nat
  deriving Repr, DecidableEq

instance {α β : Type} [DecidableEq α] [DecidableEq β] : DecidableEq (Except α β) :=
  fun a b =>
    match a, b with
    | .ok x, .ok y =>
      if h : x = y then isTrue (by rw [h]) else isFalse (by simp [h])
    | .error x, .error y =>
      if h : x = y then isTrue (by rw [h]) else isFalse (by simp [h])
    | .ok _, .error _ => isFalse (by simp)
    | .error _, .ok _ => isFalse (by simp)

/-! ## Recipe model (`models/Recipe.js`) -/

/-- Embedded rating sub-document (`ratingSchema`): user reference, a 1–5
rating value and an optional review text. -/
structure Rating where
  user : Nat
  rating : Nat
  review : Option String
  deriving Repr, DecidableEq

/-- Recipe document (`recipeSchema`), restricted to the fields read or
written by the controllers and hooks under verification.  `category` is
`Option Nat` because the controllers test its presence before use. -/
structure Recipe where
  id : Nat
  title : String
  description : String
  prepTime : Nat
  cookTime : Nat
  totalTime : Nat
  difficulty : String
  cuisine : String
  category : Option Nat
  dietaryRestrictions : List String
  tags : List String
  ratings : List Rating
  averageRating : ℚ
  totalRatings : Nat
  bookmarks : List Nat
  author : Nat
  status : String
  visibility : String
  views : Nat
  createdAt : Nat
  deriving Repr, DecidableEq

namespace Recipe

/-- First `pre('save')` hook of `recipeSchema`:
`this.totalTime = this.prepTime + this.cookTime`. -/
def totalTimeHook (r : Recipe) : Recipe :=
  { r with totalTime := r.prepTime + r.cookTime }

/-- Second `pre('save')` hook of `recipeSchema`: only when the embedded
ratings list is non-empty (`this.ratings && this.ratings.length > 0`),
recompute `averageRating = Math.round((sum/length)*10)/10` and
`totalRatings = length`. -/
def averageRatingHook (r : Recipe) : Recipe :=
  if r.ratings.length > 0 then
    let totalRating : ℚ := ((r.ratings.map (fun e => e.rating)).sum : ℕ)
    { r with
      averageRating := (jsRound ((totalRating / r.ratings.length) * 10) : ℚ) / 10,
      totalRatings := r.ratings.length }
  else
    r

/-- A `document.save()` on a recipe: the two registered `pre('save')` hooks
run in registration order, then the document is persisted as returned. -/
def save (r : Recipe) : Recipe :=
  averageRatingHook (totalTimeHook r)

/-- Instance method `recipeSchema.methods.addRating`: drop every existing
rating whose `user` equals `userId`, push the new rating, then `save()`. -/
def addRating (r : Recipe) (userId : Nat) (rating : Nat) (review : Option String) :
    Recipe :=
  let kept := r.ratings.filter (fun e => ¬ e.user = userId)
  Recipe.save { r with ratings := kept ++ [⟨userId, rating, review⟩] }

/-- Instance method `recipeSchema.methods.incrementViews`. -/
def incrementViews (r : Recipe) : Recipe :=
  Recipe.save { r with views := r.views + 1 }

end Recipe

/-- Repeated rating submissions `(userId, rating, review)` applied in order
through `addRating`. -/
def applyRatings (r : Recipe) (subs : List (Nat × Nat × Option String)) : Recipe :=
  subs.foldl (fun acc s => acc.addRating s.1 s.2.1 s.2.2) r

/-! ## Query/filter builder (`getAllRecipes` in `recipeController.js`)

The controller builds a Mongo filter by repeatedly calling `query.find(…)`;
mquery merges each new condition object into the accumulated one, a key
already present being overwritten.  We model the accumulated `_conditions`
object as an association list updated by `setCond`.  The repository pins a
Mongoose 5-era configuration (`bufferMaxEntries`, `useNewUrlParser`), where
`strictQuery` is off: filter keys that are not recipe schema paths are kept
in the query and — by Mongo missing-field semantics — match no document. -/

/-- A single Mongo condition value attached to a filter key. -/
inductive Cond where
  | eqStr (v : String)
  | eqNum (v : Nat)
  | inStr (vs : List String)
  | lte (v : Nat)
  | gte (v : Nat)
  | gtN (v : Nat)
  | ltN (v : Nat)
  | text (q : String)
  deriving Repr, DecidableEq

/-- Numeric recipe paths addressable by filter keys (object-id references
are numbers in the embedding). -/
def numField (r : Recipe) (key : String) : Option Nat :=
  if key = "prepTime" then some r.prepTime
  else if key = "cookTime" then some r.cookTime
  else if key = "totalTime" then some r.totalTime
  else if key = "views" then some r.views
  else if key = "totalRatings" then some r.totalRatings
  else if key = "createdAt" then some r.createdAt
  else if key = "author" then some r.author
  else if key = "category" then r.category
  else none

/-- String recipe paths addressable by filter keys. -/
def strField (r : Recipe) (key : String) : Option String :=
  if key = "status" then some r.status
  else if key = "visibility" then some r.visibility
  else if key = "cuisine" then some r.cuisine
  else if key = "difficulty" then some r.difficulty
  else if key = "title" then some r.title
  else none

/-- Stand-in for the `$text` index match over title/description/tags; the
spec leaves the exact relevance semantics to the store, and no claim
depends on them. -/
def textMatches (q : String) (r : Recipe) : Bool :=
  r.title = q || r.description = q || r.tags.contains q

/-- Whether one filter entry `key ↦ cond` holds of a recipe.  A condition
on a key that is not a recipe path matches nothing (missing-field
semantics); `$in` on the dietary array uses intersection (membership-any)
semantics. -/
def Cond.holds (r : Recipe) (key : String) : Cond → Bool
  | .eqStr v => (strField r key).elim false (fun x => x = v)
  | .eqNum v => (numField r key).elim false (fun x => x = v)
  | .inStr vs =>
      key = "dietaryRestrictions" && r.dietaryRestrictions.any (fun d => vs.contains d)
  | .lte v => (numField r key).elim false (fun x => x ≤ v)
  | .gte v => (numField r key).elim false (fun x => v ≤ x)
  | .gtN v => (numField r key).elim false (fun x => v < x)
  | .ltN v => (numField r key).elim false (fun x => x < v)
  | .text q => key = "$text" && textMatches q r

/-- The accumulated `_conditions` object of the query. -/
abbrev Conds := List (String × Cond)

/-- Merging one key into the conditions object: overwrite the key in place
if present, append it otherwise (mquery merge with scalar values; a
JavaScript object holds each key at most once). -/
def setCond : Conds → String → Cond → Conds
  | [], k, c => [(k, c)]
  | e :: rest, k, c =>
    if e.1 = k then (k, c) :: rest else e :: setCond rest k c

/-- Key lookup in the conditions object. -/
def lookupCond (m : Conds) (k : String) : Option Cond :=
  (m.find? (fun e => e.1 = k)).map (fun e => e.2)

/-- A recipe matches the query when every condition entry holds of it. -/
def matchesConds (m : Conds) (r : Recipe) : Bool :=
  m.all (fun e => e.2.holds r e.1)

/-- Caller-supplied query string of a recipe-listing request, after Express
parsing.  The dedicated parameters mirror `req.query.…` reads in the
controller; `extra` holds any remaining query keys (already carrying the
`gte|gt|lte|lt → $-operator` rewrite of controller line 27). -/
structure QueryParams where
  search : Option String := none
  dietary : Option String := none
  cuisine : Option String := none
  difficulty : Option String := none
  maxPrepTime : Option Nat := none
  category : Option Nat := none
  sort : Option String := none
  page : Option Nat := none
  limit : Option Nat := none
  fields : Option String := none
  extra : Conds := []

/-- Controller lines 21–28: `queryObj = {...req.query}` with
`page/sort/limit/fields/search` deleted.  The dedicated filter parameters
`dietary`, `cuisine`, `difficulty`, `maxPrepTime` and `category` are *not*
excluded, so they stay in the raw query object as literal conditions. -/
def rawQueryObj (p : QueryParams) : Conds :=
  let m := p.extra
  let m := match p.dietary with
    | some s => setCond m "dietary" (.eqStr s)
    | none => m
  let m := match p.cuisine with
    | some s => setCond m "cuisine" (.eqStr s)
    | none => m
  let m := match p.difficulty with
    | some s => setCond m "difficulty" (.eqStr s)
    | none => m
  let m := match p.maxPrepTime with
    | some n => setCond m "maxPrepTime" (.eqNum n)
    | none => m
  let m := match p.category with
    | some n => setCond m "category" (.eqNum n)
    | none => m
  m

/-- The authenticated principal attached to the request, if any. -/
structure Caller where
  id : Nat
  role : String
  deriving Repr, DecidableEq

/-- Whether the visibility constraint applies:
`!req.user || req.user.role !== 'admin'` (controller line 31). -/
def nonAdminCaller (user : Option Caller) : Bool :=
  user.elim true (fun u => ¬ u.role = "admin")

/-- Controller lines 35–66: the dedicated filter handlers — text search,
the dietary `$in` translation, cuisine, difficulty, the
`maxPrepTime → prepTime $lte` translation and the category filter, merged
in source order. -/
def applyNamedFilters (p : QueryParams) (m0 : Conds) : Conds :=
  let m := match p.search with
    | some q => setCond m0 "$text" (.text q)
    | none => m0
  let m := match p.dietary with
    | some s => setCond m "dietaryRestrictions" (.inStr (s.splitOn ","))
    | none => m
  let m := match p.cuisine with
    | some s => setCond m "cuisine" (.eqStr s)
    | none => m
  let m := match p.difficulty with
    | some s => setCond m "difficulty" (.eqStr s)
    | none => m
  let m := match p.maxPrepTime with
    | some n => setCond m "prepTime" (.lte n)
    | none => m
  let m := match p.category with
    | some n => setCond m "category" (.eqNum n)
    | none => m
  m

/-- Controller lines 28–66: successive `query.find(…)` merges — the raw
query object, then the non-admin visibility constraint (line 32), then the
dedicated filter handlers. -/
def buildConds (p : QueryParams) (user : Option Caller) : Conds :=
  let m := rawQueryObj p
  let m :=
    if nonAdminCaller user then
      setCond (setCond m "status" (.eqStr "published")) "visibility" (.eqStr "public")
    else m
  applyNamedFilters p m

/-- Stable insertion of a recipe into an already-sorted list. -/
def insertSorted (le : Recipe → Recipe → Bool) (r : Recipe) :
    List Recipe → List Recipe
  | [] => [r]
  | x :: rest => if le r x then r :: x :: rest else x :: insertSorted le r rest

/-- Stable sort by a Boolean comparator (the store's sort, modelled as
insertion sort). -/
def sortByCmp (le : Recipe → Recipe → Bool) (l : List Recipe) : List Recipe :=
  l.foldr (insertSorted le) []

/-- Sort step: `-createdAt` (the default) orders newest first; any other
sort expression is modelled as keeping the store order, which no claim
depends on. -/
def sortRecipes (sort : Option String) (l : List Recipe) : List Recipe :=
  match sort with
  | none => sortByCmp (fun a b => b.createdAt ≤ a.createdAt) l
  | some _ => l

/-- Response payload of `getAllRecipes`. -/
structure ListResponse where
  results : Nat
  page : Nat
  limit : Nat
  total : Nat
  pages : Nat
  recipes : List Recipe
  deriving Repr, DecidableEq

/-- Controller `getAllRecipes`: build the merged filter, apply it, sort,
paginate (`page`/`limit` falling back to 1/12 on absent or zero values),
and count `total` with `countDocuments(JSON.parse(queryStr))` — that is,
against the *raw* query object only. -/
def getAllRecipes (db : List Recipe) (p : QueryParams) (user : Option Caller) :
    ListResponse :=
  let conds := buildConds p user
  let matched := (db.filter (fun r => matchesConds conds r))
  let sorted := sortRecipes p.sort matched
  let page := match p.page with
    | some n => if n = 0 then 1 else n
    | none => 1
  let limit := match p.limit with
    | some n => if n = 0 then 12 else n
    | none => 12
  let skip := (page - 1) * limit
  let recipes := (sorted.drop skip).take limit
  let total := (db.filter (fun r => matchesConds (rawQueryObj p) r)).length
  { results := recipes.length
    page := page
    limit := limit
    total := total
    pages := (total + limit - 1) / limit
    recipes := recipes }

/-! ## Recipe mutations (`recipeController.js`) -/

/-- Controller `toggleBookmark` (lines 376–407), at the document level:
membership test with `includes`, `pull` (removes every occurrence) or
`push`, then `save()`; the response carries `bookmarked = !isBookmarked`. -/
def toggleBookmark (r : Recipe) (uid : Nat) : Recipe × Bool :=
  let isBookmarked := r.bookmarks.contains uid
  let r' :=
    if isBookmarked then
      { r with bookmarks := r.bookmarks.filter (fun x => ¬ x = uid) }
    else
      { r with bookmarks := r.bookmarks ++ [uid] }
  (Recipe.save r', !isBookmarked)

/-- Updatable recipe fields of a `PATCH /api/recipes/:id` body, restricted
to the fields of the embedding; absent fields are left untouched. -/
structure RecipeUpdateBody where
  title : Option String := none
  prepTime : Option Nat := none
  cookTime : Option Nat := none
  category : Option Nat := none
  status : Option String := none
  visibility : Option String := none

/-- Effect of `Recipe.findByIdAndUpdate(id, req.body, …)`: the body fields
overwrite the stored document directly.  As in Mongoose, this update path
runs **none** of the `pre('save')` document hooks. -/
def applyRecipeUpdate (r : Recipe) (b : RecipeUpdateBody) : Recipe :=
  { r with
    title := b.title.getD r.title
    prepTime := b.prepTime.getD r.prepTime
    cookTime := b.cookTime.getD r.cookTime
    category := match b.category with
      | some c => some c
      | none => r.category
    status := b.status.getD r.status
    visibility := b.visibility.getD r.visibility }

/-- Controller `updateRecipe` (lines 214–268): lookup (404), ownership
check (403), category existence check when the category changes (400),
then `findByIdAndUpdate` with the request body.  `cats` is the set of
existing category ids.  Returns the updated store and the response
document. -/
def updateRecipe (db : List Recipe) (user : Caller) (rid : Nat)
    (body : RecipeUpdateBody) (cats : List Nat) :
    Except AppError (List Recipe × Recipe) :=
  match db.find? (fun r => r.id = rid) with
  | none => .error ⟨"No recipe found with that ID", 404⟩
  | some recipe =>
    if ¬ recipe.author = user.id && ¬ user.role = "admin" then
      .error ⟨"You can only update your own recipes", 403⟩
    else if (match body.category with
        | some c => ¬ some c = recipe.category && ¬ cats.contains c
        | none => false) then
      .error ⟨"Invalid category ID", 400⟩
    else
      let updated := applyRecipeUpdate recipe body
      .ok (db.map (fun r => if r.id = rid then updated else r), updated)

/-- Controller `rateRecipe` (lines 342–371): lookup (404), author
self-rating rejection (400), then `recipe.addRating(…)`; the response
carries the recomputed aggregate fields. -/
def rateRecipe (db : List Recipe) (user : Caller) (rid : Nat) (rating : Nat)
    (review : Option String) : Except AppError (List Recipe × ℚ × Nat) :=
  match db.find? (fun r => r.id = rid) with
  | none => .error ⟨"No recipe found with that ID", 404⟩
  | some recipe =>
    if recipe.author = user.id then
      .error ⟨"You cannot rate your own recipe", 400⟩
    else
      let updated := recipe.addRating user.id rating review
      .ok (db.map (fun r => if r.id = rid then updated else r),
           updated.averageRating, updated.totalRatings)

/-! ## Category model (`models/Category.js`) -/

/-- Category document (`categorySchema`), restricted to the fields the
claims touch.  An empty `path` models the unset (`undefined`) path. -/
structure Category where
  id : Nat
  name : String
  slug : String
  code : String
  parent : Option Nat
  children : List Nat
  level : Nat
  path : String
  recipeCount : Nat
  status : String
  deriving Repr, DecidableEq

/-- Characters kept by the slug derivation's strip step
(`replace(/[^a-z0-9\s-]/g, '')`). -/
def keptChar (c : Char) : Bool :=
  ('a' ≤ c && c ≤ 'z') || ('0' ≤ c && c ≤ '9') || c = '-' || c.isWhitespace

/-- Worker for `collapseRuns`: the flag records whether the previous
character belonged to a run already replaced. -/
def collapseRunsGo (p : Char → Bool) (rep : Char) : Bool → List Char → List Char
  | _, [] => []
  | inRun, c :: rest =>
    if p c then
      if inRun then collapseRunsGo p rep true rest
      else rep :: collapseRunsGo p rep true rest
    else c :: collapseRunsGo p rep false rest

/-- Replace every maximal run of characters satisfying `p` by the single
character `rep` (the effect of `replace(/X+/g, rep)`). -/
def collapseRuns (p : Char → Bool) (rep : Char) (l : List Char) : List Char :=
  collapseRunsGo p rep false l

/-- Whitespace trim of both ends (JavaScript's `trim`; the source's
`trim('-')` ignores its argument and trims whitespace only). -/
def trimWs (l : List Char) : List Char :=
  ((l.dropWhile Char.isWhitespace).reverse.dropWhile Char.isWhitespace).reverse

/-- Slug derivation of the category slug `pre('save')` hook: lowercase,
strip characters outside `[a-z0-9\s-]`, turn whitespace runs into hyphens,
collapse hyphen runs, then `trim` (which trims whitespace, of which none
remains after the replacements). -/
def slugify (name : String) : String :=
  let lowered := name.data.map Char.toLower
  let stripped := lowered.filter keptChar
  let hyphenated := collapseRuns Char.isWhitespace '-' stripped
  let collapsed := collapseRuns (fun c => c = '-') '-' hyphenated
  String.mk (trimWs collapsed)

/-- A category document together with its Mongoose modified-paths state,
as consulted by `isModified(…)` in the save hooks. -/
structure CategoryDoc where
  cat : Category
  nameModified : Bool
  parentModified : Bool

/-- First `pre('save')` hook of `categorySchema`: derive the slug from the
name when the name is modified and no slug is present. -/
def slugHook (d : CategoryDoc) : CategoryDoc :=
  if d.nameModified && d.cat.slug = "" then
    { d with cat := { d.cat with slug := slugify d.cat.name } }
  else d

/-- Second `pre('save')` hook of `categorySchema`: when `parent` is
modified, look the parent up and set `level = parent.level + 1` and
`path = parent.path + "/" + slug` (just the slug when the parent's path is
unset); with no parent, reset to level 0 and `path = slug`.  A dangling
parent reference leaves the fields untouched, as in the source. -/
def pathLevelHook (db : List Category) (d : CategoryDoc) : CategoryDoc :=
  if d.parentModified then
    match d.cat.parent with
    | some pid =>
      match db.find? (fun c => c.id = pid) with
      | some parent =>
        { d with cat := { d.cat with
            level := parent.level + 1,
            path := if ¬ parent.path = "" then parent.path ++ "/" ++ d.cat.slug
                    else d.cat.slug } }
      | none => d
    | none => { d with cat := { d.cat with level := 0, path := d.cat.slug } }
  else d

/-- Schema validation applied by the schema-validating store when the
document is persisted: the required fields must be present and `level` may
not exceed the schema maximum of 5. -/
def validCategory (c : Category) : Bool :=
  ¬ c.name = "" && ¬ c.slug = "" && ¬ c.code = "" && c.level ≤ 5

/-- A `document.save()` on a category: the two registered `pre('save')`
hooks run in registration order and the resulting document is persisted if
it passes schema validation. -/
def categorySave (db : List Category) (d : CategoryDoc) :
    Except AppError Category :=
  let d1 := pathLevelHook db (slugHook d)
  if validCategory d1.cat then .ok d1.cat
  else .error ⟨"Category validation failed", 400⟩

/-- The `post('save')` hook of `categorySchema`: `$addToSet` the saved
category into its parent's `children`. -/
def postSaveChildren (db : List Category) (c : Category) : List Category :=
  match c.parent with
  | some pid =>
      db.map (fun x =>
        if x.id = pid ∧ c.id ∉ x.children then
          { x with children := x.children ++ [c.id] }
        else x)
  | none => db

/-- Controller `deleteCategory` (lines 755–799): lookup (404), refuse when
any recipe references the category (400, message carrying the count),
refuse when it has children (400), otherwise unlink from the parent and
delete. -/
def deleteCategory (cats : List Category) (recipes : List Recipe) (cid : Nat) :
    Except AppError (List Category) :=
  match cats.find? (fun c => c.id = cid) with
  | none => .error ⟨"No category found with that ID", 404⟩
  | some category =>
    let recipeCount := (recipes.filter (fun r => r.category = some cid)).length
    if recipeCount > 0 then
      .error ⟨"Cannot delete category with " ++ toString recipeCount ++
        " recipes. Please move or delete the recipes first.", 400⟩
    else if category.children.length > 0 then
      .error ⟨"Cannot delete category with subcategories. Please delete or move the subcategories first.", 400⟩
    else
      let cats1 := match category.parent with
        | some pid =>
            cats.map (fun (x : Category) =>
              if x.id = pid then
                { x with children := x.children.filter (fun ch => ¬ ch = cid) }
              else x)
        | none => cats
      .ok (cats1.filter (fun x => ¬ x.id = cid))

/-- Updatable category fields of a `PATCH /api/categories/:id` body; the
`parent` field, when present, may set a new parent or clear it. -/
structure CategoryUpdateBody where
  name : Option String := none
  slug : Option String := none
  code : Option String := none
  parent : Option (Option Nat) := none

/-- Effect of `Category.findByIdAndUpdate(id, req.body, …)`: direct field
overwrite (with the schema's uppercase setter on `code`); as in Mongoose,
**no** `pre('save')` hook runs on this path. -/
def applyCategoryUpdate (c : Category) (b : CategoryUpdateBody) : Category :=
  { c with
    name := b.name.getD c.name
    slug := b.slug.getD c.slug
    code := (b.code.map String.toUpper).getD c.code
    parent := b.parent.getD c.parent }

/-- Controller `updateCategory` (lines 695–750): lookup (404), duplicate
code/slug check (409) when either is being updated, then
`findByIdAndUpdate` with the request body. -/
def updateCategory (cats : List Category) (cid : Nat) (body : CategoryUpdateBody) :
    Except AppError (List Category × Category) :=
  match cats.find? (fun c => c.id = cid) with
  | none => .error ⟨"No category found with that ID", 404⟩
  | some category =>
    let dup :=
      if body.code.isSome || body.slug.isSome then
        cats.find? (fun c => ¬ c.id = cid &&
          (match body.code with
            | some k => c.code = k.toUpper
            | none => true) &&
          (match body.slug with
            | some s => c.slug = s
            | none => true))
      else none
    match dup with
    | some existing =>
        let field :=
          if body.code.elim false (fun k => existing.code = k.toUpper) then
            "code"
          else "slug"
        .error ⟨"Category with this " ++ field ++ " already exists", 409⟩
    | none =>
      let updated := applyCategoryUpdate category body
      .ok (cats.map (fun c => if c.id = cid then updated else c), updated)

/-! ## Authentication pipeline (`middleware/auth.js`) -/

/-- Account fields of the User model consulted by the auth pipeline.  The
User model file itself is not part of the sources; `passwordChangedAt` and
`lockUntil` carry the state its instance helpers read. -/
structure User where
  id : Nat
  role : String
  accountStatus : String
  lockUntil : Option Nat
  passwordChangedAt : Option Nat
  deriving Repr, DecidableEq

/-- Modelled from the spec: the User model (its `changedPasswordAfter`
instance method) is not among the sources.  Per the spec, a token is
invalidated when "the account's password was changed at a time after the
token was issued (token issuance timestamp compared to password-change
timestamp)"; an account that never changed its password has no
password-change timestamp. -/
def changedPasswordAfter (u : User) (iat : Nat) : Bool :=
  match u.passwordChangedAt with
  | some t => iat < t
  | none => false

/-- Modelled from the spec: the User model (its `isLocked` virtual) is not
among the sources.  Per the spec, "lock state derived from a lock-until
timestamp". -/
def isLocked (u : User) (now : Nat) : Bool :=
  match u.lockUntil with
  | some t => now < t
  | none => false

/-- A decoded bearer token: subject id, issued-at and expiry timestamps,
and whether its signature verifies against the server secret. -/
structure Token where
  id : Nat
  iat : Nat
  exp : Nat
  validSig : Bool
  deriving Repr, DecidableEq

/-- Outcome of the `protect` middleware. -/
inductive AuthResult where
  | ok (u : User)
  | err (e : AppError)
  deriving Repr, DecidableEq

/-- Middleware `protect` (auth.js lines 81–168): token presence, signature
and expiry verification, subject resolution, account-status check, lock
check, and the password-change-after-issuance check, in source order. -/
def protect (findUser : Nat → Option User) (now : Nat) (token : Option Token) :
    AuthResult :=
  match token with
  | none => .err ⟨"You are not logged in! Please log in to get access.", 401⟩
  | some t =>
    if ¬ t.validSig then
      .err ⟨"Invalid token. Please log in again!", 401⟩
    else if t.exp ≤ now then
      .err ⟨"Your token has expired! Please log in again.", 401⟩
    else
      match findUser t.id with
      | none => .err ⟨"The user belonging to this token does no longer exist.", 401⟩
      | some currentUser =>
        if ¬ currentUser.accountStatus = "active" then
          .err ⟨"Your account is not active. Please contact support.", 403⟩
        else if isLocked currentUser now then
          .err ⟨"Your account is temporarily locked. Please try again later.", 423⟩
        else if changedPasswordAfter currentUser t.iat then
          .err ⟨"User recently changed password! Please log in again.", 401⟩
        else
          .ok currentUser

/-! ## Sample documents used by witnesses and counterexamples -/

/-- A published, public recipe as stored after a successful save. -/
def sampleRecipe : Recipe :=
  { id := 1, title := "Pasta", description := "Tasty pasta dish", prepTime := 10,
    cookTime := 20, totalTime := 30, difficulty := "beginner", cuisine := "italian",
    category := some 7, dietaryRestrictions := ["vegetarian"], tags := ["pasta"],
    ratings := [], averageRating := 0, totalRatings := 0, bookmarks := [],
    author := 42, status := "published", visibility := "public", views := 0,
    createdAt := 100 }

/-- A draft recipe by the same author. -/
def draftRecipe : Recipe :=
  { sampleRecipe with id := 2, title := "Secret", status := "draft", createdAt := 200 }

/-- A root category with a materialized path. -/
def mainsCategory : Category :=
  { id := 1, name := "Mains", slug := "mains", code := "MAIN", parent := none,
    children := [], level := 0, path := "mains", recipeCount := 0, status := "active" }

/-- A second root category. -/
def pastaCategory : Category :=
  { id := 2, name := "Pasta", slug := "pasta", code := "PAS", parent := none,
    children := [], level := 0, path := "pasta", recipeCount := 0, status := "active" }

/-! ## Condition-object lemmas -/

theorem lookupCond_setCond_self (k : String) (c : Cond) :
    ∀ m : Conds, lookupCond (setCond m k c) k = some c := by
  intro m
  induction m with
  | nil =>
    unfold setCond lookupCond
    rw [List.find?_cons_of_pos _ (by simp)]
    rfl
  | cons e rest ih =>
    unfold setCond
    by_cases he : e.1 = k
    · rw [if_pos he]
      unfold lookupCond
      rw [List.find?_cons_of_pos _ (by simp)]
      rfl
    · rw [if_neg he]
      unfold lookupCond
      rw [List.find?_cons_of_neg _ (by simp [he])]
      exact ih

theorem lookupCond_setCond_ne {k k' : String} (h : ¬ k = k') (c : Cond) :
    ∀ m : Conds, lookupCond (setCond m k c) k' = lookupCond m k' := by
  intro m
  induction m with
  | nil =>
    unfold setCond lookupCond
    rw [List.find?_cons_of_neg _ (by simp [h])]
  | cons e rest ih =>
    unfold setCond
    by_cases he : e.1 = k
    · rw [if_pos he]
      unfold lookupCond
      rw [List.find?_cons_of_neg _ (by simp [h]),
        List.find?_cons_of_neg _ (by simp [he, h])]
    · rw [if_neg he]
      unfold lookupCond
      by_cases he' : e.1 = k'
      · rw [List.find?_cons_of_pos _ (by simp [he']),
          List.find?_cons_of_pos _ (by simp [he'])]
      · rw [List.find?_cons_of_neg _ (by simp [he']),
          List.find?_cons_of_neg _ (by simp [he'])]
        exact ih

theorem holds_of_matches {m : Conds} {r : Recipe} (hm : matchesConds m r = true)
    {k : String} {c : Cond} (hl : lookupCond m k = some c) :
    c.holds r k = true := by
  unfold lookupCond at hl
  obtain ⟨e, hfind, he2⟩ := Option.map_eq_some'.mp hl
  have hmem := List.mem_of_find?_eq_some hfind
  have hfs := List.find?_some hfind
  have hk : e.1 = k := of_decide_eq_true hfs
  unfold matchesConds at hm
  have hall := List.all_eq_true.mp hm e hmem
  rw [← he2, ← hk]
  exact hall

theorem lookupCond_applyNamedFilters (p : QueryParams) (m : Conds) (k : String)
    (h1 : ¬ "$text" = k) (h2 : ¬ "dietaryRestrictions" = k) (h3 : ¬ "cuisine" = k)
    (h4 : ¬ "difficulty" = k) (h5 : ¬ "prepTime" = k) (h6 : ¬ "category" = k) :
    lookupCond (applyNamedFilters p m) k = lookupCond m k := by
  unfold applyNamedFilters
  cases p.search <;> cases p.dietary <;> cases p.cuisine <;> cases p.difficulty <;>
    cases p.maxPrepTime <;> cases p.category <;>
      simp only [lookupCond_setCond_ne h1, lookupCond_setCond_ne h2,
        lookupCond_setCond_ne h3, lookupCond_setCond_ne h4,
        lookupCond_setCond_ne h5, lookupCond_setCond_ne h6]

theorem buildConds_status_visibility (p : QueryParams) (user : Option Caller)
    (hu : ∀ u, user = some u → ¬ u.role = "admin") :
    lookupCond (buildConds p user) "status" = some (.eqStr "published") ∧
    lookupCond (buildConds p user) "visibility" = some (.eqStr "public") := by
  have hg : nonAdminCaller user = true := by
    cases user with
    | none => rfl
    | some u => simpa [nonAdminCaller] using hu u rfl
  unfold buildConds
  rw [hg]
  simp only [if_true]
  constructor
  · rw [lookupCond_applyNamedFilters p _ "status" (by decide) (by decide) (by decide)
      (by decide) (by decide) (by decide)]
    rw [lookupCond_setCond_ne (by decide), lookupCond_setCond_self]
  · rw [lookupCond_applyNamedFilters p _ "visibility" (by decide) (by decide) (by decide)
      (by decide) (by decide) (by decide)]
    rw [lookupCond_setCond_self]

theorem mem_insertSorted {le : Recipe → Recipe → Bool} {r v : Recipe} :
    ∀ {l : List Recipe}, v ∈ insertSorted le r l → v = r ∨ v ∈ l := by
  intro l
  induction l with
  | nil =>
    intro h
    simp [insertSorted] at h
    exact Or.inl h
  | cons x rest ih =>
    unfold insertSorted
    by_cases hle : le r x
    · rw [if_pos hle]
      intro h
      rcases List.mem_cons.mp h with h1 | h2
      · exact Or.inl h1
      · exact Or.inr h2
    · rw [if_neg hle]
      intro h
      rcases List.mem_cons.mp h with h1 | h2
      · exact Or.inr (List.mem_cons.mpr (Or.inl h1))
      · rcases ih h2 with h3 | h4
        · exact Or.inl h3
        · exact Or.inr (List.mem_cons.mpr (Or.inr h4))

theorem mem_sortByCmp {le : Recipe → Recipe → Bool} {v : Recipe} :
    ∀ {l : List Recipe}, v ∈ sortByCmp le l → v ∈ l := by
  intro l
  induction l with
  | nil => exact fun h => h
  | cons x rest ih =>
    intro h
    rcases mem_insertSorted h with h1 | h2
    · exact List.mem_cons.mpr (Or.inl h1)
    · exact List.mem_cons.mpr (Or.inr (ih h2))

theorem mem_sortRecipes {s : Option String} {l : List Recipe} {r : Recipe}
    (h : r ∈ sortRecipes s l) : r ∈ l := by
  unfold sortRecipes at h
  cases s with
  | none => exact mem_sortByCmp h
  | some _ => exact h

theorem mem_recipes_matches (db : List Recipe) (p : QueryParams)
    (user : Option Caller) (r : Recipe)
    (hr : r ∈ (getAllRecipes db p user).recipes) :
    matchesConds (buildConds p user) r = true := by
  unfold getAllRecipes at hr
  dsimp only at hr
  have h1 := List.mem_of_mem_take hr
  have h2 := List.mem_of_mem_drop h1
  have h3 := mem_sortRecipes h2
  exact (List.mem_filter.mp h3).2

/-- C1: an unauthenticated or non-admin caller listing recipes receives
only recipes with `status = published` and `visibility = public`, for
every combination of query parameters — including parameters naming the
`status` or `visibility` fields directly, which are merged over by the
controller's visibility constraint. -/
theorem nonadmin_listing_only_published_public
    (db : List Recipe) (p : QueryParams) (user : Option Caller)
    (hu : ∀ u, user = some u → ¬ u.role = "admin")
    (r : Recipe) (hr : r ∈ (getAllRecipes db p user).recipes) :
    r.status = "published" ∧ r.visibility = "public" := by
  have hm := mem_recipes_matches db p user r hr
  obtain ⟨hst, hvis⟩ := buildConds_status_visibility p user hu
  have h1 := holds_of_matches hm hst
  have h2 := holds_of_matches hm hvis
  simp [Cond.holds, strField] at h1 h2
  exact ⟨h1, h2⟩

/-- Witness for C1: an anonymous caller who tries to request draft recipes
by naming `status` directly still only receives the published, public
recipe. -/
theorem nonadmin_listing_only_published_public_witness :
    sampleRecipe ∈ (getAllRecipes [sampleRecipe, draftRecipe]
      { extra := [("status", Cond.eqStr "draft")] } none).recipes ∧
    sampleRecipe.status = "published" ∧ sampleRecipe.visibility = "public" :=
  ⟨by decide,
   nonadmin_listing_only_published_public [sampleRecipe, draftRecipe]
     { extra := [("status", Cond.eqStr "draft")] } none
     (fun u h => by cases h) sampleRecipe (by decide)⟩

/-! ## Rating aggregate maintenance (C2, C3) -/

theorem save_ratings (r : Recipe) : (Recipe.save r).ratings = r.ratings := by
  unfold Recipe.save Recipe.averageRatingHook Recipe.totalTimeHook
  split <;> rfl

theorem save_bookmarks (r : Recipe) : (Recipe.save r).bookmarks = r.bookmarks := by
  unfold Recipe.save Recipe.averageRatingHook Recipe.totalTimeHook
  split <;> rfl

/-- Counterexample to C2 as stated: a save of a recipe whose embedded
ratings list is empty but whose stored `totalRatings` is stale does *not*
recompute the aggregates — the hook is guarded by
`this.ratings.length > 0` — so `totalRatings` stays at 3 while the list
has length 0. -/
theorem save_empty_ratings_skips_recompute :
    (Recipe.save { sampleRecipe with totalRatings := 3 }).totalRatings = 3 ∧
    (Recipe.save { sampleRecipe with totalRatings := 3 }).ratings.length = 0 ∧
    ¬ (Recipe.save { sampleRecipe with totalRatings := 3 }).totalRatings =
        (Recipe.save { sampleRecipe with totalRatings := 3 }).ratings.length := by
  refine ⟨by decide, by decide, by decide⟩

/-- C2 (amended): on every save with a non-empty embedded ratings list,
`averageRating` is recomputed as the mean of the rating values rounded to
one decimal (`Math.round(mean*10)/10`) and `totalRatings` as the list
length; a save with an empty ratings list leaves both stored aggregates
unchanged. -/
theorem save_recomputes_rating_aggregates (r : Recipe) :
    (r.ratings ≠ [] →
      (Recipe.save r).totalRatings = r.ratings.length ∧
      (Recipe.save r).averageRating =
        (jsRound ((((r.ratings.map (fun e => e.rating)).sum : ℕ) : ℚ)
          / r.ratings.length * 10) : ℚ) / 10) ∧
    (r.ratings = [] →
      (Recipe.save r).totalRatings = r.totalRatings ∧
      (Recipe.save r).averageRating = r.averageRating) := by
  constructor
  · intro h
    have hlen : 0 < r.ratings.length := List.length_pos.mpr h
    unfold Recipe.save Recipe.averageRatingHook Recipe.totalTimeHook
    simp [hlen]
  · intro h
    unfold Recipe.save Recipe.averageRatingHook Recipe.totalTimeHook
    simp [h]

/-- A recipe carrying two ratings, 4 and 5. -/
def ratedRecipe : Recipe :=
  { sampleRecipe with ratings := [⟨1, 4, none⟩, ⟨2, 5, none⟩] }

/-- Witness for the amended C2 at a concrete recipe with ratings 4 and 5:
the hypothesis of a non-empty list holds and the aggregates are
recomputed. -/
theorem save_recomputes_rating_aggregates_witness :
    ratedRecipe.ratings ≠ [] ∧
    (Recipe.save ratedRecipe).totalRatings = ratedRecipe.ratings.length :=
  ⟨by decide, ((save_recomputes_rating_aggregates ratedRecipe).1 (by decide)).1⟩

theorem addRating_ratings (r : Recipe) (u rat : Nat) (rev : Option String) :
    (r.addRating u rat rev).ratings =
      (r.ratings.filter (fun e => ¬ e.user = u)) ++ [⟨u, rat, rev⟩] := by
  unfold Recipe.addRating
  rw [save_ratings]

theorem filter_user_of_filter_ne (l : List Rating) (u : Nat) :
    (l.filter (fun e => ¬ e.user = u)).filter (fun e => e.user = u) = [] := by
  induction l with
  | nil => rfl
  | cons e rest ih =>
    by_cases h : e.user = u
    · simp [List.filter_cons, h, ih]
    · simp [List.filter_cons, h, ih]

theorem addRating_filter_user (r : Recipe) (u rat : Nat) (rev : Option String) :
    ((r.addRating u rat rev).ratings.filter (fun e => e.user = u)).length = 1 := by
  rw [addRating_ratings, List.filter_append, filter_user_of_filter_ne]
  simp

theorem addRating_users_nodup (r : Recipe) (u rat : Nat) (rev : Option String)
    (h : (r.ratings.map Rating.user).Nodup) :
    ((r.addRating u rat rev).ratings.map Rating.user).Nodup := by
  rw [addRating_ratings, List.map_append, List.nodup_append]
  refine ⟨List.Nodup.sublist ((List.filter_sublist r.ratings).map Rating.user) h,
    List.nodup_singleton u, ?_⟩
  intro x hx hx'
  simp only [List.map_cons, List.map_nil, List.mem_singleton] at hx'
  obtain ⟨e, he, hxe⟩ := List.mem_map.mp hx
  have := (List.mem_filter.mp he).2
  rw [hx'] at hxe
  simp [hxe] at this

theorem addRating_users_subset (r : Recipe) (u rat : Nat) (rev : Option String) :
    ∀ x ∈ (r.addRating u rat rev).ratings.map Rating.user,
      x ∈ r.ratings.map Rating.user ∨ x = u := by
  intro x hx
  rw [addRating_ratings, List.map_append] at hx
  rcases List.mem_append.mp hx with h1 | h2
  · obtain ⟨e, he, hxe⟩ := List.mem_map.mp h1
    exact Or.inl (List.mem_map.mpr ⟨e, (List.mem_filter.mp he).1, hxe⟩)
  · right
    simpa using h2

theorem applyRatings_cons (r : Recipe) (s : Nat × Nat × Option String)
    (rest : List (Nat × Nat × Option String)) :
    applyRatings r (s :: rest) = applyRatings (r.addRating s.1 s.2.1 s.2.2) rest := rfl

theorem applyRatings_users_nodup (subs : List (Nat × Nat × Option String)) :
    ∀ r : Recipe, (r.ratings.map Rating.user).Nodup →
      ((applyRatings r subs).ratings.map Rating.user).Nodup := by
  induction subs with
  | nil => exact fun r h => h
  | cons s rest ih =>
    exact fun r h => ih _ (addRating_users_nodup r s.1 s.2.1 s.2.2 h)

theorem applyRatings_users_subset (subs : List (Nat × Nat × Option String)) :
    ∀ (r : Recipe) (x : Nat), x ∈ (applyRatings r subs).ratings.map Rating.user →
      x ∈ r.ratings.map Rating.user ∨ x ∈ subs.map (fun s => s.1) := by
  induction subs with
  | nil => exact fun r x hx => Or.inl hx
  | cons s rest ih =>
    intro r x hx
    rcases ih _ x hx with h1 | h2
    · rcases addRating_users_subset r s.1 s.2.1 s.2.2 x h1 with h3 | h4
      · exact Or.inl h3
      · exact Or.inr (by simp [h4])
    · exact Or.inr (by simp [h2])

theorem nodup_length_le_dedup {l l' : List Nat} (hnd : l.Nodup)
    (hsub : ∀ x ∈ l, x ∈ l') : l.length ≤ l'.dedup.length := by
  have h1 : l.toFinset.card = l.length := List.toFinset_card_of_nodup hnd
  have h2 : l.toFinset ⊆ l'.toFinset := by
    intro x hx
    rw [List.mem_toFinset] at hx ⊢
    exact hsub x hx
  have h3 := Finset.card_le_card h2
  rw [h1, List.card_toFinset] at h3
  exact h3

theorem addRating_totalRatings (r : Recipe) (u rat : Nat) (rev : Option String) :
    (r.addRating u rat rev).totalRatings = (r.addRating u rat rev).ratings.length := by
  unfold Recipe.addRating Recipe.save Recipe.averageRatingHook Recipe.totalTimeHook
  simp

theorem applyRatings_totalRatings (subs : List (Nat × Nat × Option String)) :
    ∀ r : Recipe, r.totalRatings = r.ratings.length →
      (applyRatings r subs).totalRatings = (applyRatings r subs).ratings.length := by
  induction subs with
  | nil => exact fun r h => h
  | cons s rest ih =>
    exact fun r _ => ih _ (addRating_totalRatings r s.1 s.2.1 s.2.2)

/-- C3: `addRating` leaves exactly one entry for the submitting user and
preserves per-user uniqueness of the embedded ratings; consequently, for
every sequence of submissions to a fresh recipe, the number of rating
entries — and `totalRatings` — never exceeds the number of distinct users
who rated. -/
theorem one_rating_per_user
    (r r₀ : Recipe) (u rat : Nat) (rev : Option String)
    (hnd : (r.ratings.map Rating.user).Nodup)
    (hr0 : r₀.ratings = []) (ht0 : r₀.totalRatings = 0)
    (subs : List (Nat × Nat × Option String)) :
    ((r.addRating u rat rev).ratings.filter (fun e => e.user = u)).length = 1 ∧
    ((r.addRating u rat rev).ratings.map Rating.user).Nodup ∧
    (applyRatings r₀ subs).ratings.length ≤ (subs.map (fun s => s.1)).dedup.length ∧
    (applyRatings r₀ subs).totalRatings ≤ (subs.map (fun s => s.1)).dedup.length := by
  have hnd0 : ((applyRatings r₀ subs).ratings.map Rating.user).Nodup :=
    applyRatings_users_nodup subs r₀ (by rw [hr0]; exact List.nodup_nil)
  have hsub : ∀ x ∈ (applyRatings r₀ subs).ratings.map Rating.user,
      x ∈ subs.map (fun s => s.1) := by
    intro x hx
    rcases applyRatings_users_subset subs r₀ x hx with h1 | h2
    · rw [hr0] at h1
      simp at h1
    · exact h2
  have hb : (applyRatings r₀ subs).ratings.length ≤
      (subs.map (fun s => s.1)).dedup.length := by
    have := nodup_length_le_dedup hnd0 hsub
    simpa using this
  refine ⟨addRating_filter_user r u rat rev,
    addRating_users_nodup r u rat rev hnd, hb, ?_⟩
  rw [applyRatings_totalRatings subs r₀ (by rw [ht0, hr0]; rfl)]
  exact hb

/-- Witness for C3 at a concrete recipe and the submission sequence
user 1 → user 2 → user 1 again: two distinct users, so at most two
entries. -/
theorem one_rating_per_user_witness :
    ((ratedRecipe.ratings.map Rating.user).Nodup ∧
      sampleRecipe.ratings = [] ∧ sampleRecipe.totalRatings = 0) ∧
    ((ratedRecipe.addRating 1 5 none).ratings.filter
        (fun e => e.user = 1)).length = 1 ∧
    ((ratedRecipe.addRating 1 5 none).ratings.map Rating.user).Nodup ∧
    (applyRatings sampleRecipe [(1, 5, none), (2, 3, none), (1, 4, none)]).ratings.length ≤
      (([(1, 5, (none : Option String)), (2, 3, none), (1, 4, none)].map
        (fun s => s.1)).dedup.length) ∧
    (applyRatings sampleRecipe [(1, 5, none), (2, 3, none), (1, 4, none)]).totalRatings ≤
      (([(1, 5, (none : Option String)), (2, 3, none), (1, 4, none)].map
        (fun s => s.1)).dedup.length) :=
  ⟨⟨by decide, by decide, by decide⟩,
   one_rating_per_user ratedRecipe sampleRecipe 1 5 none (by decide) (by decide)
     (by decide) [(1, 5, none), (2, 3, none), (1, 4, none)]⟩

/-! ## Authentication pipeline (C4) -/

/-- C4: for a well-formed, correctly signed, unexpired token whose subject
exists, is active and is not locked, the pipeline accepts if and only if
no password change postdates the token's issuance, and a token issued
before a password change is rejected with the dedicated message. -/
theorem password_change_invalidates_tokens
    (findUser : Nat → Option User) (now : Nat) (t : Token) (u : User)
    (hsig : t.validSig = true) (hexp : now < t.exp)
    (hfind : findUser t.id = some u)
    (hactive : u.accountStatus = "active")
    (hlock : isLocked u now = false) :
    (protect findUser now (some t) = .ok u ↔
      ∀ pca ∈ u.passwordChangedAt, pca ≤ t.iat) ∧
    ((∃ pca ∈ u.passwordChangedAt, t.iat < pca) →
      protect findUser now (some t) =
        .err ⟨"User recently changed password! Please log in again.", 401⟩) := by
  have hexp' : ¬ t.exp ≤ now := by omega
  have hred : protect findUser now (some t) =
      (if changedPasswordAfter u t.iat then
        .err ⟨"User recently changed password! Please log in again.", 401⟩
      else .ok u) := by
    simp [protect, hsig, hfind, hactive, hlock, hexp']
  constructor
  · rw [hred]
    cases hp : u.passwordChangedAt with
    | none => simp [changedPasswordAfter, hp]
    | some pca =>
      by_cases hlt : t.iat < pca
      · simp [changedPasswordAfter, hp, hlt]
      · simp [changedPasswordAfter, hp, hlt]
        omega
  · rintro ⟨pca, hmem, hlt⟩
    rw [hred]
    have hp : u.passwordChangedAt = some pca := Option.mem_def.mp hmem
    simp [changedPasswordAfter, hp, hlt]

/-- An active user whose password changed at time 50. -/
def userW : User :=
  { id := 5, role := "user", accountStatus := "active", lockUntil := none,
    passwordChangedAt := some 50 }

/-- A valid token for `userW` issued at time 60, after the change. -/
def tokenAfterChange : Token := { id := 5, iat := 60, exp := 200, validSig := true }

/-- User lookup over a store holding only `userW`. -/
def findUserW : Nat → Option User := fun i => if i = 5 then some userW else none

/-- Witness for C4: a token issued at 60, after the password change at 50,
is accepted at time 100. -/
theorem password_change_invalidates_tokens_witness :
    (tokenAfterChange.validSig = true ∧ 100 < tokenAfterChange.exp ∧
      findUserW tokenAfterChange.id = some userW ∧
      userW.accountStatus = "active" ∧ isLocked userW 100 = false) ∧
    ((protect findUserW 100 (some tokenAfterChange) = .ok userW ↔
      ∀ pca ∈ userW.passwordChangedAt, pca ≤ tokenAfterChange.iat) ∧
     ((∃ pca ∈ userW.passwordChangedAt, tokenAfterChange.iat < pca) →
      protect findUserW 100 (some tokenAfterChange) =
        .err ⟨"User recently changed password! Please log in again.", 401⟩)) :=
  ⟨⟨rfl, by decide, rfl, rfl, rfl⟩,
   password_change_invalidates_tokens findUserW 100 tokenAfterChange userW rfl
     (by decide) rfl rfl rfl⟩

/-! ## Pagination metadata (C5) and totalTime on update (C6) -/

/-- C5 divergence: with a single draft recipe in the store and an
anonymous caller supplying no parameters, the effective filter matches
nothing (`recipes = []`, `results = 0`), yet `total` — computed by
`countDocuments(JSON.parse(queryStr))`, i.e. against the raw query object
without the visibility constraint, search, dietary or prepTime
translations — counts the invisible draft: `total = 1` and `pages = 1`,
not the 0 that the number of effectively matching recipes dictates. -/
theorem listing_total_ignores_effective_filter :
    (getAllRecipes [draftRecipe] {} none).recipes = [] ∧
    (getAllRecipes [draftRecipe] {} none).results = 0 ∧
    (getAllRecipes [draftRecipe] {} none).total = 1 ∧
    (getAllRecipes [draftRecipe] {} none).pages = 1 :=
  ⟨by decide, by decide, by decide, by decide⟩

/-- C6 divergence: the owner updates `prepTime` from 10 to 50 through
`updateRecipe`, which uses `findByIdAndUpdate` and therefore runs no
`pre('save')` hook; the stored `totalTime` remains 30 although
`prepTime + cookTime` is now 70. -/
theorem update_leaves_totalTime_stale :
    (updateRecipe [sampleRecipe] ⟨42, "user"⟩ 1 { prepTime := some 50 } [7]).toOption.map
      (fun res => (res.2.totalTime, res.2.prepTime + res.2.cookTime)) =
      some (30, 70) := by decide

/-! ## Category deletion (C7) -/

/-- The refusal error of `deleteCategory` for a category that still has
subcategories. -/
def childBlockErr : AppError :=
  ⟨"Cannot delete category with subcategories. Please delete or move the subcategories first.", 400⟩

/-- Counterexample to C7 as stated: deleting a category whose only blocker
is one child is refused, but the error is a plain 400 — not the 409 the
spec's taxonomy assigns to conflicts — and its message contains no digit
at all, so it does not name the blocking count (1). -/
theorem delete_with_children_message_lacks_count :
    deleteCategory [{ mainsCategory with children := [2] },
        { pastaCategory with parent := some 1 }] [] 1 = .error childBlockErr ∧
    childBlockErr.message.data.all (fun ch => ¬ ch.isDigit) = true ∧
    childBlockErr.statusCode = 400 :=
  ⟨by decide, by decide, by decide⟩

/-- C7 (amended): `deleteCategory` refuses to delete a category that has
referencing recipes or children, with a 400 domain error whose message
names the blocking recipe count when recipes are the blocker and is a
fixed subcategory message otherwise; the store is not mutated on the error
path, so the category remains present. -/
theorem delete_blocked_category_refused
    (cats : List Category) (recipes : List Recipe) (cid : Nat) (cat : Category)
    (hfind : cats.find? (fun c => c.id = cid) = some cat)
    (hblock : 0 < (recipes.filter (fun r => r.category = some cid)).length ∨
      cat.children ≠ []) :
    deleteCategory cats recipes cid =
      .error (if 0 < (recipes.filter (fun r => r.category = some cid)).length then
        ⟨"Cannot delete category with " ++
          toString (recipes.filter (fun r => r.category = some cid)).length ++
          " recipes. Please move or delete the recipes first.", 400⟩
      else childBlockErr) ∧
    cat ∈ cats := by
  refine ⟨?_, List.mem_of_find?_eq_some hfind⟩
  unfold deleteCategory
  rw [hfind]
  by_cases h : 0 < (recipes.filter (fun r => r.category = some cid)).length
  · simp [h, childBlockErr]
  · have hch : cat.children ≠ [] := by
      rcases hblock with h1 | h2
      · exact absurd h1 h
      · exact h2
    have hlen : 0 < cat.children.length := List.length_pos.mpr hch
    simp [h, hlen, childBlockErr]

/-- Two published recipes filed under category 1. -/
def recipesInMains : List Recipe :=
  [{ sampleRecipe with category := some 1 },
   { sampleRecipe with id := 3, category := some 1 }]

/-- Witness for the amended C7: category 1 has two referencing recipes, so
deletion is refused with the count-bearing message and the category stays
in the store. -/
theorem delete_blocked_category_refused_witness :
    ([mainsCategory].find? (fun c => c.id = 1) = some mainsCategory ∧
      (0 < (recipesInMains.filter (fun r => r.category = some 1)).length ∨
        mainsCategory.children ≠ [])) ∧
    (deleteCategory [mainsCategory] recipesInMains 1 =
      .error (if 0 < (recipesInMains.filter (fun r => r.category = some 1)).length then
        ⟨"Cannot delete category with " ++
          toString (recipesInMains.filter (fun r => r.category = some 1)).length ++
          " recipes. Please move or delete the recipes first.", 400⟩
      else childBlockErr) ∧
     mainsCategory ∈ [mainsCategory]) :=
  ⟨⟨by decide, by decide⟩,
   delete_blocked_category_refused [mainsCategory] recipesInMains 1 mainsCategory
     (by decide) (by decide)⟩

/-! ## Category hierarchy maintenance (C8, C9) -/

/-- C8 divergence: the admin reparents category 2 (level 0, path "pasta")
under category 1 (level 0, path "mains") through `updateCategory`; the
update goes through `findByIdAndUpdate`, which runs no `pre('save')` hook,
so the stored document keeps `level = 0` and `path = "pasta"` instead of
the recomputed `level = 1`, `path = "mains/pasta"`. -/
theorem reparent_via_update_keeps_stale_level_path :
    (updateCategory [mainsCategory, pastaCategory] 2
        { parent := some (some 1) }).toOption.map
      (fun res => (res.2.parent, res.2.level, res.2.path)) =
      some (some 1, 0, "pasta") := by decide

theorem pathLevelHook_slug (db : List Category) (d : CategoryDoc) :
    (pathLevelHook db d).cat.slug = d.cat.slug := by
  unfold pathLevelHook
  split
  · split
    · split <;> rfl
    · rfl
  · rfl

/-- C9: when a category save succeeds, a document saved without an
explicitly supplied slug carries the slug derived from its name by
`slugify` (lowercase, strip characters outside `[a-z0-9\s-]`, whitespace
runs to hyphens, hyphen runs collapsed), and an explicitly supplied slug
is never overwritten by the derivation. -/
theorem slug_autoderived_only_when_absent
    (db : List Category) (d : CategoryDoc) (c : Category)
    (hok : categorySave db d = .ok c) :
    (d.cat.slug = "" → c.slug = slugify d.cat.name) ∧
    (d.cat.slug ≠ "" → c.slug = d.cat.slug) := by
  unfold categorySave at hok
  constructor
  · intro hs
    by_cases hn : d.nameModified
    · have h1 : (slugHook d).cat.slug = slugify d.cat.name := by
        unfold slugHook
        simp [hn, hs]
      by_cases hv : validCategory (pathLevelHook db (slugHook d)).cat
      · rw [if_pos hv] at hok
        cases hok
        rw [pathLevelHook_slug, h1]
      · rw [if_neg hv] at hok
        cases hok
    · have h1 : (slugHook d).cat.slug = "" := by
        unfold slugHook
        simp [hn, hs]
      have h2 : (pathLevelHook db (slugHook d)).cat.slug = "" := by
        rw [pathLevelHook_slug]
        exact h1
      have hv : ¬ validCategory (pathLevelHook db (slugHook d)).cat = true := by
        unfold validCategory
        simp [h2]
      rw [if_neg hv] at hok
      cases hok
  · intro hs
    have h1 : (slugHook d).cat.slug = d.cat.slug := by
      unfold slugHook
      by_cases hg : d.nameModified && d.cat.slug = ""
      · simp at hg
        exact absurd hg.2 hs
      · rw [if_neg hg]
    by_cases hv : validCategory (pathLevelHook db (slugHook d)).cat
    · rw [if_pos hv] at hok
      cases hok
      rw [pathLevelHook_slug, h1]
    · rw [if_neg hv] at hok
      cases hok

/-- A new category named "Pasta Dishes" with no slug supplied. -/
def newCat : Category :=
  { id := 3, name := "Pasta Dishes", slug := "", code := "PD", parent := none,
    children := [], level := 0, path := "", recipeCount := 0, status := "active" }

/-- The save-time document state of `newCat` at creation. -/
def newCatDoc : CategoryDoc :=
  { cat := newCat, nameModified := true, parentModified := true }

/-- The stored result of saving `newCatDoc`. -/
def savedNewCat : Category :=
  { id := 3, name := "Pasta Dishes", slug := "pasta-dishes", code := "PD",
    parent := none, children := [], level := 0, path := "pasta-dishes",
    recipeCount := 0, status := "active" }

/-- Witness for C9: saving the slug-less "Pasta Dishes" document stores the
derived slug "pasta-dishes". -/
theorem slug_autoderived_only_when_absent_witness :
    (categorySave [] newCatDoc = .ok savedNewCat ∧ newCatDoc.cat.slug = "") ∧
    savedNewCat.slug = slugify newCatDoc.cat.name :=
  ⟨⟨by decide, by decide⟩,
   (slug_autoderived_only_when_absent [] newCatDoc savedNewCat (by decide)).1
     (by decide)⟩

/-! ## Bookmark toggling (C10) -/

theorem toggleBookmark_bookmarks (r : Recipe) (u : Nat) :
    (toggleBookmark r u).1.bookmarks =
      if r.bookmarks.contains u then r.bookmarks.filter (fun x => ¬ x = u)
      else r.bookmarks ++ [u] := by
  unfold toggleBookmark
  by_cases h : r.bookmarks.contains u
  · have hm : u ∈ r.bookmarks := by simpa using h
    simp [h, hm, save_bookmarks]
  · have hm : u ∉ r.bookmarks := by simpa using h
    simp [h, hm, save_bookmarks]

theorem mem_toggleBookmark (r : Recipe) (u v : Nat) :
    v ∈ (toggleBookmark r u).1.bookmarks ↔
      (if v = u then u ∉ r.bookmarks else v ∈ r.bookmarks) := by
  rw [toggleBookmark_bookmarks]
  by_cases h : r.bookmarks.contains u
  · rw [if_pos h]
    have hm : u ∈ r.bookmarks := by simpa using h
    by_cases hv : v = u
    · subst hv
      simp [List.mem_filter, hm]
    · simp [List.mem_filter, hv]
  · rw [if_neg h]
    have hm : u ∉ r.bookmarks := by simpa using h
    by_cases hv : v = u
    · subst hv
      simp [hm]
    · simp [hv]

/-- C10: `toggleBookmark` removes the user when present and appends the
user when absent, reports `bookmarked` as the negation of the prior
membership, acts as an involution on the bookmark set (two toggles restore
the original membership), and never duplicates a user. -/
theorem toggleBookmark_involution (r : Recipe) (u : Nat) :
    ((toggleBookmark r u).2 = !(r.bookmarks.contains u)) ∧
    (∀ v, v ∈ (toggleBookmark r u).1.bookmarks ↔
      (if v = u then u ∉ r.bookmarks else v ∈ r.bookmarks)) ∧
    (∀ v, v ∈ (toggleBookmark (toggleBookmark r u).1 u).1.bookmarks ↔
      v ∈ r.bookmarks) ∧
    (r.bookmarks.Nodup → (toggleBookmark r u).1.bookmarks.Nodup) := by
  refine ⟨rfl, fun v => mem_toggleBookmark r u v, ?_, ?_⟩
  · intro v
    rw [mem_toggleBookmark]
    by_cases hv : v = u
    · subst hv
      simp [mem_toggleBookmark]
    · simp [hv, mem_toggleBookmark]
  · intro h
    rw [toggleBookmark_bookmarks]
    by_cases hc : r.bookmarks.contains u
    · rw [if_pos hc]
      exact h.filter _
    · rw [if_neg hc]
      have hm : u ∉ r.bookmarks := by simpa using hc
      rw [List.nodup_append]
      refine ⟨h, List.nodup_singleton u, ?_⟩
      intro x hx hx'
      simp only [List.mem_singleton] at hx'
      rw [hx'] at hx
      exact hm hx

/-- Witness for C10 at bookmarks `[3, 9, 5]` toggled twice for user 9. -/
theorem toggleBookmark_involution_witness :
    ({ sampleRecipe with bookmarks := [3, 9, 5] } : Recipe).bookmarks.Nodup ∧
    (toggleBookmark { sampleRecipe with bookmarks := [3, 9, 5] } 9).2 = false ∧
    (9 ∈ (toggleBookmark
        (toggleBookmark { sampleRecipe with bookmarks := [3, 9, 5] } 9).1 9).1.bookmarks ↔
      9 ∈ ({ sampleRecipe with bookmarks := [3, 9, 5] } : Recipe).bookmarks) ∧
    (toggleBookmark { sampleRecipe with bookmarks := [3, 9, 5] } 9).1.bookmarks.Nodup := by
  have h := toggleBookmark_involution { sampleRecipe with bookmarks := [3, 9, 5] } 9
  refine ⟨by decide, ?_, h.2.2.1 9, h.2.2.2 (by decide)⟩
  rw [h.1]
  decide

end Culinary
